import Mathlib

/-!
Verification of the Item Resource Service (`src/app.py`): a FastAPI + SQLAlchemy
CRUD service over a single `items` table backed by SQLite, exposing a health
check and Create/List/Get/Update/Delete handlers.

The store is embedded as the list of persisted rows of the `items` table.
SQLite assigns the integer primary key of a newly inserted row (no explicit id
is ever supplied by `create_item`): for a rowid table without the AUTOINCREMENT
keyword — which is what `Column(Integer, primary_key=True)` declares — the new
rowid is one more than the largest rowid currently in the table, and 1 when the
table is empty.  Prices are embedded as rationals: the handlers store and
return `price` verbatim and never compute with it.
-/

namespace ItemService

/-- Request body model `ItemCreate` (app.py lines 19-22): `name` and `price`
required, `description` defaulting to the empty string. -/
structure ItemCreate where
  name : String
  description : String
  price : Rat
deriving Repr, DecidableEq

/-- Boundary-layer coercion of a request body into `ItemCreate`: pydantic
substitutes the declared default `""` when the `description` field is absent
from the request body (app.py line 21). -/
def mkItemCreate (name : String) (description : Option String) (price : Rat) :
    ItemCreate :=
  { name := name, description := description.getD "", price := price }

/-- A persisted row of the `items` table (ORM model `Item`, app.py lines
54-60): integer primary key `id`, plus `name`, `description`, `price`. -/
structure Item where
  id : Nat
  name : String
  description : String
  price : Rat
deriving Repr, DecidableEq

/-- An `HTTPException` as raised by the handlers: a status code and a detail
message. -/
structure HTTPError where
  status_code : Nat
  detail : String
deriving Repr, DecidableEq

/-- The one error the handlers raise: `HTTPException(status_code=404,
detail="Item not found")`. -/
def notFound : HTTPError :=
  { status_code := 404, detail := "Item not found" }

/-- The state of the store: the rows of the `items` table, in rowid order. -/
structure StoreState where
  items : List Item
deriving Repr, DecidableEq

/-- The store right after startup (`Base.metadata.create_all` creates an empty
`items` table). -/
def emptyStore : StoreState := ⟨[]⟩

/-- The primary key SQLite assigns to the next inserted row: one more than the
largest id currently in the table, 1 for an empty table (rowid table without
AUTOINCREMENT). -/
def freshId (s : StoreState) : Nat :=
  (s.items.map Item.id).foldr max 0 + 1

/-- Handler `POST /items` (`create_item`, app.py lines 101-114): build a row
from the request body, insert it, commit, and return the refreshed row (now
carrying its assigned id) together with the new store state.  Status 201. -/
def create_item (item : ItemCreate) (s : StoreState) : Item × StoreState :=
  let db_item : Item :=
    { id := freshId s
      name := item.name
      description := item.description
      price := item.price }
  (db_item, ⟨s.items ++ [db_item]⟩)

/-- Handler `GET /items` (`read_items`, app.py lines 117-120):
`db.query(Item).all()` — every row of the table. -/
def read_items (s : StoreState) : List Item :=
  s.items

/-- Handler `GET /items/{item_id}` (`read_item`, app.py lines 123-128):
`db.query(Item).filter(Item.id == item_id).first()`, raising 404 when no row
matches. -/
def read_item (item_id : Nat) (s : StoreState) : Except HTTPError Item :=
  match s.items.find? (fun it => it.id == item_id) with
  | none => .error notFound
  | some it => .ok it

/-- Handler `PUT /items/{item_id}` (`update_item`, app.py lines 131-147): look
the row up by id, raise 404 when absent, otherwise overwrite `name`,
`description` and `price` with the request body's values, commit, and return
the refreshed row together with the new store state. -/
def update_item (item_id : Nat) (item : ItemCreate) (s : StoreState) :
    Except HTTPError (Item × StoreState) :=
  match s.items.find? (fun it => it.id == item_id) with
  | none => .error notFound
  | some db_item =>
    let upd : Item :=
      { db_item with
        name := item.name
        description := item.description
        price := item.price }
    .ok (upd, ⟨s.items.map (fun j => if j.id == item_id then upd else j)⟩)

/-- Handler `DELETE /items/{item_id}` (`delete_item`, app.py lines 150-158):
look the row up by id, raise 404 when absent, otherwise delete the row and
commit (the response body is the constant `{"detail": "Item deleted"}`). -/
def delete_item (item_id : Nat) (s : StoreState) : Except HTTPError StoreState :=
  match s.items.find? (fun it => it.id == item_id) with
  | none => .error notFound
  | some _ => .ok ⟨s.items.filter (fun it => it.id != item_id)⟩

/-- Handler `GET /` (`root`, app.py lines 96-98): reads nothing, returns the
constant payload with FastAPI's default status code 200. -/
def root : Nat × List (String × String) :=
  (200, [("status", "ok"), ("message", "FastAPI + SQLAlchemy MVP")])

/-- A client request against the service (the five routes). -/
inductive Op where
  | create (item : ItemCreate)
  | listAll
  | get (item_id : Nat)
  | update (item_id : Nat) (item : ItemCreate)
  | delete (item_id : Nat)
deriving Repr, DecidableEq

/-- The store state after one request: reads leave the store alone, a failed
update or delete raises 404 before touching any row, successful mutations
commit their new state. -/
def step (s : StoreState) : Op → StoreState
  | .create item => (create_item item s).2
  | .listAll => s
  | .get _ => s
  | .update item_id item =>
    match update_item item_id item s with
    | .error _ => s
    | .ok r => r.2
  | .delete item_id =>
    match delete_item item_id s with
    | .error _ => s
    | .ok s2 => s2

/-- The store state after a sequence of requests. -/
def run (s : StoreState) : List Op → StoreState
  | [] => s
  | o :: ops => run (step s o) ops

/-- The ids issued by the Create requests of a run, in order. -/
def issuedIds (s : StoreState) : List Op → List Nat
  | [] => []
  | .create item :: ops => freshId s :: issuedIds (step s (.create item)) ops
  | o :: ops => issuedIds (step s o) ops

/-- Number of Create requests in a run (every Create succeeds: the handler has
no error path past input validation). -/
def numCreates : List Op → Nat
  | [] => 0
  | .create _ :: ops => numCreates ops + 1
  | _ :: ops => numCreates ops

/-- Number of Delete requests of a run that succeed (find their row). -/
def numSuccessfulDeletes (s : StoreState) : List Op → Nat
  | [] => 0
  | .delete item_id :: ops =>
    (match delete_item item_id s with
     | .ok _ => 1
     | .error _ => 0) + numSuccessfulDeletes (step s (.delete item_id)) ops
  | o :: ops => numSuccessfulDeletes (step s o) ops

/-- The ids of the rows currently in the store. -/
def storeIds (s : StoreState) : List Nat :=
  s.items.map Item.id

/-! ### Basic facts about id assignment and row lookup -/

theorem mem_le_foldr_max {a : Nat} {l : List Nat} (h : a ∈ l) :
    a ≤ l.foldr max 0 := by
  induction l with
  | nil => cases h
  | cons b t ih =>
    rcases List.mem_cons.mp h with rfl | h2
    · exact le_max_left _ _
    · exact le_trans (ih h2) (le_max_right _ _)

theorem id_lt_freshId {s : StoreState} {it : Item} (h : it ∈ s.items) :
    it.id < freshId s :=
  Nat.lt_succ_of_le (mem_le_foldr_max (List.mem_map_of_mem Item.id h))

theorem freshId_not_mem (s : StoreState) : freshId s ∉ storeIds s := by
  intro h
  rcases List.mem_map.mp h with ⟨it, hit, hid⟩
  exact absurd (hid ▸ id_lt_freshId hit) (lt_irrefl _)

theorem find?_id_eq_none_iff {item_id : Nat} {s : StoreState} :
    s.items.find? (fun it => it.id == item_id) = none ↔ item_id ∉ storeIds s := by
  rw [List.find?_eq_none]
  constructor
  · intro h hmem
    rcases List.mem_map.mp hmem with ⟨x, hx, hid⟩
    exact h x hx (by simp [hid])
  · intro h x hx hbeq
    exact h (List.mem_map.mpr ⟨x, hx, eq_of_beq hbeq⟩)

theorem find?_append_of_none {p : Item → Bool} {l₁ l₂ : List Item}
    (h : l₁.find? p = none) : (l₁ ++ l₂).find? p = l₂.find? p := by
  induction l₁ with
  | nil => simp
  | cons a t ih =>
    cases hpa : p a with
    | true =>
      rw [List.find?_cons_of_pos _ hpa] at h
      cases h
    | false =>
      rw [List.find?_cons_of_neg _ (by simp [hpa])] at h
      rw [List.cons_append, List.find?_cons_of_neg _ (by simp [hpa])]
      exact ih h

/-! ### Elimination lemmas for the success and error paths of the handlers -/

theorem update_item_ok_elim {item_id : Nat} {item : ItemCreate} {s : StoreState}
    {r : Item × StoreState} (h : update_item item_id item s = .ok r) :
    ∃ db_item, s.items.find? (fun it => it.id == item_id) = some db_item ∧
      r.1 = { db_item with
              name := item.name
              description := item.description
              price := item.price } ∧
      r.2 = ⟨s.items.map (fun j => if j.id == item_id then r.1 else j)⟩ := by
  unfold update_item at h
  cases hf : s.items.find? (fun it => it.id == item_id) with
  | none => rw [hf] at h; cases h
  | some db_item =>
    rw [hf] at h
    cases h
    exact ⟨db_item, rfl, rfl, rfl⟩

theorem delete_item_ok_elim {item_id : Nat} {s s2 : StoreState}
    (h : delete_item item_id s = .ok s2) :
    (∃ db_item, s.items.find? (fun it => it.id == item_id) = some db_item) ∧
    s2 = ⟨s.items.filter (fun it => it.id != item_id)⟩ := by
  unfold delete_item at h
  cases hf : s.items.find? (fun it => it.id == item_id) with
  | none => rw [hf] at h; cases h
  | some db_item =>
    rw [hf] at h
    cases h
    exact ⟨⟨db_item, rfl⟩, rfl⟩

theorem update_item_found_id {item_id : Nat} {item : ItemCreate} {s : StoreState}
    {r : Item × StoreState} (h : update_item item_id item s = .ok r) :
    r.1.id = item_id := by
  obtain ⟨db_item, hf, h1, -⟩ := update_item_ok_elim h
  have hbeq : (db_item.id == item_id) = true := by
    simpa using List.find?_some hf
  rw [h1]
  exact eq_of_beq hbeq

theorem map_id_update {item_id : Nat} {upd : Item} (hupd : upd.id = item_id)
    (l : List Item) :
    (l.map (fun j => if j.id == item_id then upd else j)).map Item.id
      = l.map Item.id := by
  induction l with
  | nil => rfl
  | cons a t ih =>
    simp only [List.map_cons, ih, List.cons.injEq, and_true]
    by_cases ha : a.id = item_id
    · simp [ha, hupd]
    · simp [ha]

theorem update_item_ok_ids {item_id : Nat} {item : ItemCreate} {s : StoreState}
    {r : Item × StoreState} (h : update_item item_id item s = .ok r) :
    storeIds r.2 = storeIds s := by
  obtain ⟨db_item, hf, h1, h2⟩ := update_item_ok_elim h
  have hid := update_item_found_id h
  rw [h2]
  exact map_id_update hid s.items

theorem find?_map_update {item_id : Nat} {upd : Item} (hupd : upd.id = item_id)
    {l : List Item} {db_item : Item}
    (h : l.find? (fun it => it.id == item_id) = some db_item) :
    (l.map (fun j => if j.id == item_id then upd else j)).find?
      (fun it => it.id == item_id) = some upd := by
  induction l with
  | nil => cases h
  | cons a t ih =>
    by_cases ha : a.id = item_id
    · rw [List.map_cons, if_pos (by simp [ha])]
      exact List.find?_cons_of_pos _ (by simp [hupd])
    · rw [List.find?_cons_of_neg _ (by simp [ha])] at h
      rw [List.map_cons, if_neg (by simp [ha]),
        List.find?_cons_of_neg _ (by simp [ha])]
      exact ih h

/-! ### Effect of a successful delete on the table -/

theorem filter_ne_eq_self {l : List Item} {item_id : Nat}
    (h : item_id ∉ l.map Item.id) :
    l.filter (fun it => it.id != item_id) = l := by
  apply List.filter_eq_self.mpr
  intro a ha
  simp only [bne_iff_ne, ne_eq]
  intro contra
  exact h (List.mem_map.mpr ⟨a, ha, contra⟩)

theorem length_filter_ne {l : List Item} {item_id : Nat}
    (h : List.count item_id (l.map Item.id) = 1) :
    (l.filter (fun it => it.id != item_id)).length + 1 = l.length := by
  induction l with
  | nil => simp at h
  | cons a t ih =>
    by_cases ha : a.id = item_id
    · have hcnt : List.count item_id (t.map Item.id) = 0 := by
        rw [List.map_cons, ha, List.count_cons_self] at h
        omega
      have hnm : item_id ∉ t.map Item.id := List.count_eq_zero.mp hcnt
      rw [List.filter_cons_of_neg (by simp [ha]), filter_ne_eq_self hnm,
        List.length_cons]
    · have h2 : List.count item_id (t.map Item.id) = 1 := by
        rw [List.map_cons, List.count_cons_of_ne (fun e => ha e.symm)] at h
        exact h
      rw [List.filter_cons_of_pos (by simp [ha]), List.length_cons,
        List.length_cons, ih h2]

theorem delete_item_ok_length {item_id : Nat} {s s2 : StoreState}
    (hnd : (storeIds s).Nodup) (h : delete_item item_id s = .ok s2) :
    s2.items.length + 1 = s.items.length := by
  obtain ⟨⟨db_item, hf⟩, rfl⟩ := delete_item_ok_elim h
  have hmem : db_item ∈ s.items := List.mem_of_find?_eq_some hf
  have hid : db_item.id = item_id := by
    have : (db_item.id == item_id) = true := by simpa using List.find?_some hf
    exact eq_of_beq this
  have hmem2 : item_id ∈ storeIds s := List.mem_map.mpr ⟨db_item, hmem, hid⟩
  exact length_filter_ne (List.count_eq_one_of_mem hnd hmem2)

theorem delete_item_ok_not_mem {item_id : Nat} {s s2 : StoreState}
    (h : delete_item item_id s = .ok s2) : item_id ∉ storeIds s2 := by
  obtain ⟨-, rfl⟩ := delete_item_ok_elim h
  intro contra
  rcases List.mem_map.mp contra with ⟨it, hit, hid⟩
  have := List.of_mem_filter hit
  rw [bne_iff_ne] at this
  exact this hid

/-! ### Invariants preserved by every request -/

theorem storeIds_create (item : ItemCreate) (s : StoreState) :
    storeIds (create_item item s).2 = storeIds s ++ [freshId s] := by
  simp [create_item, storeIds]

theorem step_nodup {s : StoreState} (hnd : (storeIds s).Nodup) (o : Op) :
    (storeIds (step s o)).Nodup := by
  cases o with
  | create item =>
    rw [step, storeIds_create]
    rw [List.nodup_append]
    refine ⟨hnd, List.nodup_singleton _, ?_⟩
    intro x hx hx2
    rw [List.mem_singleton] at hx2
    exact freshId_not_mem s (hx2 ▸ hx)
  | listAll => exact hnd
  | get item_id => exact hnd
  | update item_id item =>
    rw [step]
    cases hu : update_item item_id item s with
    | error e => exact hnd
    | ok r => rw [update_item_ok_ids hu]; exact hnd
  | delete item_id =>
    rw [step]
    cases hd : delete_item item_id s with
    | error e => exact hnd
    | ok s2 =>
      obtain ⟨-, rfl⟩ := delete_item_ok_elim hd
      have hsub : List.Sublist
          ((s.items.filter (fun it => it.id != item_id)).map Item.id)
          (s.items.map Item.id) :=
        (List.filter_sublist s.items).map Item.id
      exact List.Nodup.sublist hsub hnd

theorem run_nodup (ops : List Op) :
    ∀ s : StoreState, (storeIds s).Nodup → (storeIds (run s ops)).Nodup := by
  induction ops with
  | nil => intro s hnd; exact hnd
  | cons o ops ih => intro s hnd; exact ih _ (step_nodup hnd o)

theorem run_length (ops : List Op) :
    ∀ s : StoreState, (storeIds s).Nodup →
      (run s ops).items.length + numSuccessfulDeletes s ops
        = s.items.length + numCreates ops := by
  induction ops with
  | nil => intro s hnd; simp [run, numSuccessfulDeletes, numCreates]
  | cons o ops ih =>
    intro s hnd
    have hrec := ih (step s o) (step_nodup hnd o)
    cases o with
    | create item =>
      simp only [run, numSuccessfulDeletes, numCreates]
      have hlen : (step s (.create item)).items.length = s.items.length + 1 := by
        simp [step, create_item]
      omega
    | listAll =>
      simp only [run, numSuccessfulDeletes, numCreates]
      have hlen : step s .listAll = s := rfl
      rw [hlen] at hrec ⊢
      omega
    | get item_id =>
      simp only [run, numSuccessfulDeletes, numCreates]
      have hlen : step s (.get item_id) = s := rfl
      rw [hlen] at hrec ⊢
      omega
    | update item_id item =>
      simp only [run, numSuccessfulDeletes, numCreates]
      have hlen : (step s (.update item_id item)).items.length
          = s.items.length := by
        rw [step]
        cases hu : update_item item_id item s with
        | error e => rfl
        | ok r =>
          have := congrArg List.length (update_item_ok_ids hu)
          simpa [storeIds] using this
      omega
    | delete item_id =>
      simp only [run, numSuccessfulDeletes, numCreates]
      cases hd : delete_item item_id s with
      | error e =>
        have hlen : step s (.delete item_id) = s := by rw [step, hd]
        rw [hlen] at hrec ⊢
        change (run s ops).items.length + (0 + numSuccessfulDeletes s ops)
          = s.items.length + numCreates ops
        omega
      | ok s2 =>
        have hstep : step s (.delete item_id) = s2 := by rw [step, hd]
        have hlen := delete_item_ok_length hnd hd
        rw [hstep] at hrec ⊢
        change (run s2 ops).items.length + (1 + numSuccessfulDeletes s2 ops)
          = s.items.length + numCreates ops
        omega

/-! ### Provenance of persisted ids: every id in the store was issued -/

theorem issuedIds_cons (s : StoreState) (o : Op) (ops : List Op) :
    issuedIds s (o :: ops) = issuedIds s [o] ++ issuedIds (step s o) ops := by
  cases o <;> rfl

theorem storeIds_step_cases {s : StoreState} {o : Op} {i : Nat}
    (h : i ∈ storeIds (step s o)) :
    i ∈ storeIds s ∨ i ∈ issuedIds s [o] := by
  cases o with
  | create item =>
    rw [step, storeIds_create] at h
    rcases List.mem_append.mp h with h2 | h2
    · exact Or.inl h2
    · exact Or.inr (by simpa [issuedIds] using h2)
  | listAll => exact Or.inl h
  | get item_id => exact Or.inl h
  | update item_id item =>
    rw [step] at h
    cases hu : update_item item_id item s with
    | error e => rw [hu] at h; exact Or.inl h
    | ok r =>
      rw [hu] at h
      rw [update_item_ok_ids hu] at h
      exact Or.inl h
  | delete item_id =>
    rw [step] at h
    cases hd : delete_item item_id s with
    | error e => rw [hd] at h; exact Or.inl h
    | ok s2 =>
      rw [hd] at h
      obtain ⟨-, rfl⟩ := delete_item_ok_elim hd
      rcases List.mem_map.mp h with ⟨it, hit, hid⟩
      exact Or.inl (List.mem_map.mpr ⟨it, List.mem_of_mem_filter hit, hid⟩)

theorem not_mem_run_of_not_issued (ops : List Op) :
    ∀ s i, i ∉ storeIds s → i ∉ issuedIds s ops →
      i ∉ storeIds (run s ops) := by
  induction ops with
  | nil => intro s i h1 h2; exact h1
  | cons o ops ih =>
    intro s i h1 h2
    rw [issuedIds_cons] at h2
    rw [run]
    refine ih _ i ?_ (fun hm => h2 (List.mem_append.mpr (Or.inr hm)))
    intro hm
    rcases storeIds_step_cases hm with h3 | h3
    · exact h1 h3
    · exact h2 (List.mem_append.mpr (Or.inl h3))

theorem run_ids_issued (ops : List Op) :
    ∀ s i, i ∈ storeIds (run s ops) →
      i ∈ storeIds s ∨ i ∈ issuedIds s ops := by
  intro s i h
  by_cases h1 : i ∈ storeIds s
  · exact Or.inl h1
  · by_cases h2 : i ∈ issuedIds s ops
    · exact Or.inr h2
    · exact absurd h (not_mem_run_of_not_issued ops s i h1 h2)

/-! ### The claims -/

/-- C1: for every valid input, Create followed by Get on the id it returned
yields a record whose name, description and price equal the submitted values,
and whose id is the non-null (positive) id assigned by Create. -/
theorem create_then_get_roundtrip (item : ItemCreate) (s : StoreState) :
    read_item (create_item item s).1.id (create_item item s).2
      = .ok (create_item item s).1 ∧
    (create_item item s).1.name = item.name ∧
    (create_item item s).1.description = item.description ∧
    (create_item item s).1.price = item.price ∧
    0 < (create_item item s).1.id := by
  refine ⟨?_, rfl, rfl, rfl, Nat.succ_pos _⟩
  have h1 : s.items.find? (fun it => it.id == freshId s) = none :=
    find?_id_eq_none_iff.mpr (freshId_not_mem s)
  show read_item (freshId s)
      ⟨s.items ++ [⟨freshId s, item.name, item.description, item.price⟩]⟩
    = .ok ⟨freshId s, item.name, item.description, item.price⟩
  unfold read_item
  rw [find?_append_of_none h1, List.find?_cons_of_pos _ (by simp)]

/-- C4 counterexample: on the request sequence Create, Create, Delete 2,
Create, the store (a SQLite rowid table without AUTOINCREMENT) issues the ids
1, 2, 2: the third Create reassigns the id 2 that the second Create had
assigned, because the row holding the largest id was deleted in between.  So
an id can be reused after deletion within a running store instance. -/
theorem create_reissues_deleted_id :
    issuedIds emptyStore
        [Op.create ⟨"a", "", 1⟩, Op.create ⟨"b", "", 2⟩, Op.delete 2,
         Op.create ⟨"c", "", 3⟩]
      = [1, 2, 2] ∧
    ¬ (issuedIds emptyStore
        [Op.create ⟨"a", "", 1⟩, Op.create ⟨"b", "", 2⟩, Op.delete 2,
         Op.create ⟨"c", "", 3⟩]).Nodup :=
  ⟨rfl, by decide⟩

/-- C4 (amended): after any request sequence the persisted ids are pairwise
distinct, and the id a Create would assign next is never an id currently in
the store (it is one more than the largest persisted id); but an id may be
reassigned after the Item holding the largest id is deleted, so "never reused
after deletion" does not hold. -/
theorem persisted_ids_unique (ops : List Op) :
    (storeIds (run emptyStore ops)).Nodup ∧
    ∀ item : ItemCreate,
      (create_item item (run emptyStore ops)).1.id
        ∉ storeIds (run emptyStore ops) := by
  refine ⟨run_nodup ops emptyStore (by simp [storeIds, emptyStore]), ?_⟩
  intro item
  exact freshId_not_mem _

/-- C6: after any request sequence from startup, the length of List() equals
the number of successful Creates minus the number of successful Deletes; and
List() on the empty store returns the empty sequence (it always succeeds: the
handler has no error path). -/
theorem list_length_accounting (ops : List Op) :
    (read_items (run emptyStore ops)).length
      = numCreates ops - numSuccessfulDeletes emptyStore ops ∧
    numSuccessfulDeletes emptyStore ops ≤ numCreates ops ∧
    read_items emptyStore = [] := by
  have h := run_length ops emptyStore (by simp [storeIds, emptyStore])
  have h0 : emptyStore.items.length = 0 := rfl
  rw [h0] at h
  simp only [read_items]
  refine ⟨by omega, by omega, rfl⟩

/-- C9: the health check takes no input (the handler reads neither the request
nor the store) and returns the same static payload, with FastAPI's default
status code 200, on every invocation. -/
theorem root_health_static :
    root = (200, [("status", "ok"), ("message", "FastAPI + SQLAlchemy MVP")]) :=
  rfl

/-- C10: two Creates with identical field values both succeed and persist two
distinct records with distinct ids — no deduplication is applied to any field
other than the assigned id. -/
theorem duplicate_create_two_records (item : ItemCreate) (s : StoreState) :
    (create_item item (create_item item s).2).1.id ≠ (create_item item s).1.id ∧
    (create_item item s).1 ∈ (create_item item (create_item item s).2).2.items ∧
    (create_item item (create_item item s).2).1
      ∈ (create_item item (create_item item s).2).2.items ∧
    (create_item item (create_item item s).2).1.name
      = (create_item item s).1.name ∧
    (create_item item (create_item item s).2).1.description
      = (create_item item s).1.description ∧
    (create_item item (create_item item s).2).1.price
      = (create_item item s).1.price := by
  have hmem : (create_item item s).1 ∈ (create_item item s).2.items := by
    simp [create_item]
  have hlt := id_lt_freshId hmem
  refine ⟨(Nat.ne_of_lt hlt).symm, ?_, ?_, rfl, rfl, rfl⟩
  · exact List.mem_append.mpr (Or.inl hmem)
  · exact List.mem_append.mpr (Or.inr (List.mem_singleton.mpr rfl))

/-- C2: for every id that no Create of the request sequence has issued (the
store starts empty), Get, Update and Delete on that id all fail with the 404
NotFound error rather than succeeding. -/
theorem never_issued_id_notFound (ops : List Op) (i : Nat) (item : ItemCreate)
    (h : i ∉ issuedIds emptyStore ops) :
    read_item i (run emptyStore ops) = .error notFound ∧
    update_item i item (run emptyStore ops) = .error notFound ∧
    delete_item i (run emptyStore ops) = .error notFound := by
  have hm : i ∉ storeIds (run emptyStore ops) := by
    intro hmem
    rcases run_ids_issued ops emptyStore i hmem with h1 | h1
    · simp [storeIds, emptyStore] at h1
    · exact h h1
  have hf := find?_id_eq_none_iff.mpr hm
  refine ⟨?_, ?_, ?_⟩
  · unfold read_item; rw [hf]
  · unfold update_item; rw [hf]
  · unfold delete_item; rw [hf]

/-- Witness for C2: after a single Create (which issues id 1), id 5 was never
issued, and Get, Update and Delete on 5 all return the 404 error. -/
theorem never_issued_id_notFound_witness :
    5 ∉ issuedIds emptyStore [Op.create ⟨"a", "", 1⟩] ∧
    (read_item 5 (run emptyStore [Op.create ⟨"a", "", 1⟩]) = .error notFound ∧
     update_item 5 ⟨"b", "", 2⟩ (run emptyStore [Op.create ⟨"a", "", 1⟩])
       = .error notFound ∧
     delete_item 5 (run emptyStore [Op.create ⟨"a", "", 1⟩])
       = .error notFound) :=
  ⟨by decide,
   never_issued_id_notFound [Op.create ⟨"a", "", 1⟩] 5 ⟨"b", "", 2⟩ (by decide)⟩

/-- C3: a successful Update overwrites all three mutable fields with exactly
the submitted values (full replacement); when `description` is omitted from
the update body, the boundary layer substitutes the literal default `""`, so
the stored description becomes the empty string, not the previous value. -/
theorem update_full_replacement {item_id : Nat} {name : String}
    {description : Option String} {price : Rat} {s : StoreState}
    {r : Item × StoreState}
    (h : update_item item_id (mkItemCreate name description price) s = .ok r) :
    r.1.name = name ∧
    r.1.description = description.getD "" ∧
    r.1.price = price ∧
    (description = none → r.1.description = "") ∧
    read_item item_id r.2 = .ok r.1 := by
  obtain ⟨db_item, hf, h1, h2⟩ := update_item_ok_elim h
  have hid := update_item_found_id h
  refine ⟨by rw [h1]; rfl, by rw [h1]; rfl, by rw [h1]; rfl, ?_, ?_⟩
  · intro hd
    rw [h1]
    simp [mkItemCreate, hd]
  · rw [h2]
    unfold read_item
    rw [find?_map_update hid hf]

/-- Witness for C3: updating id 1 with body {name: "x", price: 5} (description
omitted) replaces all three fields and stores description "". -/
theorem update_full_replacement_witness :
    (update_item 1 (mkItemCreate "x" none 5) ⟨[⟨1, "a", "old", 2⟩]⟩
       = .ok (⟨1, "x", "", 5⟩, ⟨[⟨1, "x", "", 5⟩]⟩)) ∧
    ((⟨1, "x", "", 5⟩ : Item).name = "x" ∧
     (⟨1, "x", "", 5⟩ : Item).description = (none : Option String).getD "" ∧
     (⟨1, "x", "", 5⟩ : Item).price = 5 ∧
     ((none : Option String) = none → (⟨1, "x", "", 5⟩ : Item).description = "") ∧
     read_item 1 ⟨[⟨1, "x", "", 5⟩]⟩ = .ok ⟨1, "x", "", 5⟩) :=
  ⟨rfl,
   update_full_replacement
     (show update_item 1 (mkItemCreate "x" none 5) ⟨[⟨1, "a", "old", 2⟩]⟩
         = .ok (⟨1, "x", "", 5⟩, ⟨[⟨1, "x", "", 5⟩]⟩) from rfl)⟩

/-- C5: after a successful Delete(id), Get(id) fails with the 404 error and
List() contains no record with that id, and this persists across any further
request sequence in which no Create happens to reassign that id. -/
theorem delete_then_absent {item_id : Nat} {s s2 : StoreState}
    (h : delete_item item_id s = .ok s2) (ops : List Op)
    (hno : item_id ∉ issuedIds s2 ops) :
    read_item item_id (run s2 ops) = .error notFound ∧
    ∀ it ∈ read_items (run s2 ops), it.id ≠ item_id := by
  have h2 := delete_item_ok_not_mem h
  have h3 := not_mem_run_of_not_issued ops s2 item_id h2 hno
  constructor
  · unfold read_item
    rw [find?_id_eq_none_iff.mpr h3]
  · intro it hit he
    exact h3 (List.mem_map.mpr ⟨it, hit, he⟩)

/-- Witness for C5: deleting id 1 from a two-row store, then creating another
record (which is issued id 6, not 1), leaves Get(1) failing with 404 and
List() free of id 1. -/
theorem delete_then_absent_witness :
    (delete_item 1 ⟨[⟨1, "a", "", 2⟩, ⟨5, "b", "", 3⟩]⟩
       = .ok ⟨[⟨5, "b", "", 3⟩]⟩) ∧
    1 ∉ issuedIds ⟨[⟨5, "b", "", 3⟩]⟩ [Op.create ⟨"c", "", 4⟩] ∧
    (read_item 1 (run ⟨[⟨5, "b", "", 3⟩]⟩ [Op.create ⟨"c", "", 4⟩])
       = .error notFound ∧
     ∀ it ∈ read_items (run ⟨[⟨5, "b", "", 3⟩]⟩ [Op.create ⟨"c", "", 4⟩]),
       it.id ≠ 1) :=
  ⟨rfl, by decide,
   delete_then_absent
     (show delete_item 1 ⟨[⟨1, "a", "", 2⟩, ⟨5, "b", "", 3⟩]⟩
         = .ok ⟨[⟨5, "b", "", 3⟩]⟩ from rfl)
     [Op.create ⟨"c", "", 4⟩] (by decide)⟩

/-- C7: when Update or Delete fails, the error is the 404 NotFound error and
the store state is unchanged by the request — the handler raises before
touching any row, so nothing is created, modified or removed. -/
theorem failed_mutation_unchanged {item_id : Nat} {item : ItemCreate}
    {s : StoreState} {e1 e2 : HTTPError}
    (hu : update_item item_id item s = .error e1)
    (hd : delete_item item_id s = .error e2) :
    e1 = notFound ∧ e2 = notFound ∧
    step s (.update item_id item) = s ∧ step s (.delete item_id) = s := by
  have he1 : e1 = notFound := by
    unfold update_item at hu
    cases hf : s.items.find? (fun it => it.id == item_id) with
    | none => rw [hf] at hu; cases hu; rfl
    | some db_item => rw [hf] at hu; cases hu
  have he2 : e2 = notFound := by
    unfold delete_item at hd
    cases hf : s.items.find? (fun it => it.id == item_id) with
    | none => rw [hf] at hd; cases hd; rfl
    | some db_item => rw [hf] at hd; cases hd
  refine ⟨he1, he2, ?_, ?_⟩
  · rw [step, hu]
  · rw [step, hd]

/-- Witness for C7: on the empty store, Update(1) and Delete(1) both fail with
the 404 error and leave the store empty. -/
theorem failed_mutation_unchanged_witness :
    (update_item 1 ⟨"a", "", 1⟩ emptyStore = .error notFound) ∧
    (delete_item 1 emptyStore = .error notFound) ∧
    (notFound = notFound ∧ notFound = notFound ∧
     step emptyStore (.update 1 ⟨"a", "", 1⟩) = emptyStore ∧
     step emptyStore (.delete 1) = emptyStore) :=
  ⟨rfl, rfl, failed_mutation_unchanged rfl rfl⟩

/-- C8: a successful Update keeps the record's id, keeps the table's id
sequence and row count unchanged (same identity, mutation in place), keeps
every other record untouched, and the updated record remains in the store. -/
theorem update_preserves_identity {item_id : Nat} {item : ItemCreate}
    {s : StoreState} {r : Item × StoreState}
    (h : update_item item_id item s = .ok r) :
    r.1.id = item_id ∧
    storeIds r.2 = storeIds s ∧
    r.2.items.length = s.items.length ∧
    r.1 ∈ r.2.items ∧
    (∀ j ∈ s.items, j.id ≠ item_id → j ∈ r.2.items) := by
  obtain ⟨db_item, hf, h1, h2⟩ := update_item_ok_elim h
  have hid := update_item_found_id h
  refine ⟨hid, update_item_ok_ids h, ?_, ?_, ?_⟩
  · have := congrArg List.length (update_item_ok_ids h)
    simpa [storeIds] using this
  · rw [h2]
    have hmem : db_item ∈ s.items := List.mem_of_find?_eq_some hf
    have hdb : db_item.id = item_id :=
      eq_of_beq (by simpa using List.find?_some hf)
    refine List.mem_map.mpr ⟨db_item, hmem, ?_⟩
    rw [if_pos (by simp [hdb])]
  · intro j hj hne
    rw [h2]
    refine List.mem_map.mpr ⟨j, hj, ?_⟩
    rw [if_neg (by simp [hne])]

/-- Witness for C8: updating id 1 in a two-row store keeps id 1, keeps the id
sequence [1, 2] and the row count, and leaves the row with id 2 untouched. -/
theorem update_preserves_identity_witness :
    (update_item 1 ⟨"x", "", 9⟩ ⟨[⟨1, "a", "", 2⟩, ⟨2, "b", "", 3⟩]⟩
       = .ok (⟨1, "x", "", 9⟩, ⟨[⟨1, "x", "", 9⟩, ⟨2, "b", "", 3⟩]⟩)) ∧
    ((⟨1, "x", "", 9⟩ : Item).id = 1 ∧
     storeIds ⟨[⟨1, "x", "", 9⟩, ⟨2, "b", "", 3⟩]⟩
       = storeIds ⟨[⟨1, "a", "", 2⟩, ⟨2, "b", "", 3⟩]⟩ ∧
     (⟨[⟨1, "x", "", 9⟩, ⟨2, "b", "", 3⟩]⟩ : StoreState).items.length
       = (⟨[⟨1, "a", "", 2⟩, ⟨2, "b", "", 3⟩]⟩ : StoreState).items.length ∧
     (⟨1, "x", "", 9⟩ : Item)
       ∈ (⟨[⟨1, "x", "", 9⟩, ⟨2, "b", "", 3⟩]⟩ : StoreState).items ∧
     (∀ j ∈ (⟨[⟨1, "a", "", 2⟩, ⟨2, "b", "", 3⟩]⟩ : StoreState).items,
        j.id ≠ 1 →
        j ∈ (⟨[⟨1, "x", "", 9⟩, ⟨2, "b", "", 3⟩]⟩ : StoreState).items)) :=
  ⟨rfl,
   update_preserves_identity
     (show update_item 1 ⟨"x", "", 9⟩ ⟨[⟨1, "a", "", 2⟩, ⟨2, "b", "", 3⟩]⟩
         = .ok (⟨1, "x", "", 9⟩, ⟨[⟨1, "x", "", 9⟩, ⟨2, "b", "", 3⟩]⟩)
       from rfl)⟩

end ItemService
